import Mathlib

/-!
Verification of the PoliTo lessons downloader (`main.py`): a shallow
embedding of its download and size-management pipeline, and theorems
settling the specification's claims about it.

Embedded components, each translated from the source:
* `sanitize_filename` — `re.sub(r'[^\w\s-]', '', name).strip()` over
  explicit character lists (the `re` character classes `\w` and `\s`
  are modelled by the executable predicates `isWordChar`/`isSpaceChar`).
* `cleanup_temp_files` — the `os.walk` scan for `_temp.mp4` files over
  an explicit directory tree, and the per-file deletion loop.
* `compress_video`'s bitrate planning — over `ℚ` with Python's
  `int()` truncation made explicit; the `ffprobe` outcome is a
  parameter (`none` models a probe failure).
* `download_file` — a function over a filesystem model
  `String → Option (List Nat)` (path to file bytes), with the network
  fetch and the `ffmpeg` invocation as explicit oracles, since both
  are external to the program.
-/

namespace PolitoDL

/-! ## Filename sanitizer (`sanitize_filename`, main.py lines 17-20) -/

/-- Model of the `re` class `\w` (word character). The source runs `re`
on `str` input, so `\w` is Unicode-aware; ASCII letters, digits and the
underscore model it here — the claims about the sanitizer depend only on
the classes' membership structure, not on their exact extent. -/
def isWordChar (c : Char) : Bool := c.isAlpha || c.isDigit || c == '_'

/-- Model of the `re` class `\s` and of the set of characters
`str.strip()` removes (both are whitespace). -/
def isSpaceChar (c : Char) : Bool :=
  c == ' ' || c == '\t' || c == '\n' || c == '\r' || c == '\x0b' || c == '\x0c'

/-- A character the substitution `re.sub(r'[^\w\s-]', '', name)` keeps. -/
def keepChar (c : Char) : Bool := isWordChar c || isSpaceChar c || c == '-'

/-- Python's `str.strip()`: drop whitespace from both ends. -/
def stripChars (l : List Char) : List Char :=
  List.rdropWhile isSpaceChar (l.dropWhile isSpaceChar)

/-- `re.sub(r'[^\w\s-]', '', name).strip()` at the character-list level. -/
def sanitizeChars (l : List Char) : List Char := stripChars (l.filter keepChar)

/-- `sanitize_filename` from main.py line 17-20. -/
def sanitize_filename (s : String) : String := String.mk (sanitizeChars s.data)

/-! ## Bitrate planner (`compress_video`, main.py lines 60-76) -/

/-- Python's `int()` applied to a float: truncation toward zero. -/
def pyTrunc (q : ℚ) : ℤ := if q < 0 then ⌈q⌉ else ⌊q⌋

/-- The bitrate-planning slice of `compress_video` (main.py lines 65-73):
`duration` is the `get_video_duration` result (`none` models the probe
failing, i.e. returning Python `None`).  The source's guard is
`if not duration:`, which is taken both for `None` and for `0.0`; the
source then formats the kbps number as the string `f"{video_bitrate}k"`,
modelled as the bare integer. -/
def compress_video_plan (duration : Option ℚ) (max_size_mb : ℚ)
    (audio_bitrate_kbps : ℤ) : ℤ :=
  match duration with
  | none => 500
  | some d =>
      if d = 0 then 500
      else max 100 (pyTrunc (max_size_mb * 8192 / d - (audio_bitrate_kbps : ℚ) - 50))

/-! ## Helper lemmas for the sanitizer -/

theorem mem_of_mem_dropWhile {q : Char → Bool} {l : List Char} {c : Char}
    (h : c ∈ l.dropWhile q) : c ∈ l :=
  (List.dropWhile_suffix q).sublist.subset h

theorem mem_of_mem_rdropWhile {q : Char → Bool} {l : List Char} {c : Char}
    (h : c ∈ List.rdropWhile q l) : c ∈ l := by
  rw [List.rdropWhile, List.mem_reverse] at h
  exact List.mem_reverse.mp (mem_of_mem_dropWhile h)

theorem mem_of_mem_stripChars {l : List Char} {c : Char}
    (h : c ∈ stripChars l) : c ∈ l :=
  mem_of_mem_dropWhile (mem_of_mem_rdropWhile h)

theorem keepChar_of_mem_sanitizeChars {l : List Char} {c : Char}
    (h : c ∈ sanitizeChars l) : keepChar c = true :=
  List.of_mem_filter (mem_of_mem_stripChars h)

theorem dropWhile_rdropWhile_cons {q : Char → Bool} {a : Char}
    (ha : q a = false) (t : List Char) :
    (List.rdropWhile q (a :: t)).dropWhile q = List.rdropWhile q (a :: t) := by
  rw [List.rdropWhile, List.reverse_cons, List.dropWhile_append]
  by_cases h : (List.dropWhile q t.reverse).isEmpty = true
  · simp only [h, if_pos]
    simp [List.dropWhile_cons, ha]
  · simp only [h, if_neg, Bool.false_eq_true, not_false_iff]
    rw [List.reverse_append, List.reverse_singleton]
    simp [List.dropWhile_cons, ha]

theorem dropWhile_stripChars (q : Char → Bool) (l : List Char) :
    (List.rdropWhile q (l.dropWhile q)).dropWhile q
      = List.rdropWhile q (l.dropWhile q) := by
  cases hy : l.dropWhile q with
  | nil => simp [List.rdropWhile_nil]
  | cons a t =>
      have ha : q a = false := by
        have hne : l.dropWhile q ≠ [] := by rw [hy]; exact List.cons_ne_nil a t
        have h2 := List.head_dropWhile_not q l hne
        simp only [hy, List.head_cons] at h2
        exact h2
      rw [← hy]
      rw [hy]
      exact dropWhile_rdropWhile_cons ha t

theorem stripChars_noLeading (l : List Char) :
    (stripChars l).dropWhile isSpaceChar = stripChars l :=
  dropWhile_stripChars isSpaceChar l

theorem stripChars_noTrailing (l : List Char) :
    List.rdropWhile isSpaceChar (stripChars l) = stripChars l :=
  List.rdropWhile_idempotent isSpaceChar (l.dropWhile isSpaceChar)

theorem sanitizeChars_idem (l : List Char) :
    sanitizeChars (sanitizeChars l) = sanitizeChars l := by
  have hfilter : (sanitizeChars l).filter keepChar = sanitizeChars l :=
    List.filter_eq_self.mpr fun c hc => keepChar_of_mem_sanitizeChars hc
  show stripChars ((sanitizeChars l).filter keepChar) = sanitizeChars l
  rw [hfilter]
  show List.rdropWhile isSpaceChar ((sanitizeChars l).dropWhile isSpaceChar)
      = sanitizeChars l
  rw [show (sanitizeChars l).dropWhile isSpaceChar = sanitizeChars l from
        stripChars_noLeading (l.filter keepChar)]
  exact stripChars_noTrailing (l.filter keepChar)

/-- C9: the sanitizer emits only word characters, whitespace and hyphens,
trims whitespace at both ends (`dropWhile`/`rdropWhile` of whitespace are
no-ops on its output), and is idempotent. -/
theorem sanitize_filename_spec : ∀ s : String,
    (sanitize_filename s).data.all keepChar = true
  ∧ (sanitize_filename s).data.dropWhile isSpaceChar = (sanitize_filename s).data
  ∧ List.rdropWhile isSpaceChar (sanitize_filename s).data = (sanitize_filename s).data
  ∧ sanitize_filename (sanitize_filename s) = sanitize_filename s := by
  intro s
  refine ⟨?_, ?_, ?_, ?_⟩
  · exact List.all_eq_true.mpr fun c hc => keepChar_of_mem_sanitizeChars hc
  · exact stripChars_noLeading (s.data.filter keepChar)
  · exact stripChars_noTrailing (s.data.filter keepChar)
  · show String.mk (sanitizeChars (sanitizeChars s.data)) = String.mk (sanitizeChars s.data)
    rw [sanitizeChars_idem]

/-! ## Claims about the bitrate planner -/

/-- C1: for positive inputs the planner returns
`max 100 (int (target_size_mb * 8192 / duration - audio - 50))`; at
`(600 s, 200 MB, 128 kbps)` that is 2552 kbps; and whenever the raw
(pre-clamp) value is below 100 the result is exactly 100. -/
theorem compress_video_plan_formula :
    (∀ (d max_size_mb : ℚ) (ab : ℤ), 0 < d → 0 < max_size_mb → 0 < ab →
        compress_video_plan (some d) max_size_mb ab
          = max 100 (pyTrunc (max_size_mb * 8192 / d - (ab : ℚ) - 50)))
  ∧ compress_video_plan (some 600) 200 128 = 2552
  ∧ (∀ (d max_size_mb : ℚ) (ab : ℤ), 0 < d →
        max_size_mb * 8192 / d - (ab : ℚ) - 50 < 100 →
        compress_video_plan (some d) max_size_mb ab = 100) := by
  refine ⟨?_, ?_, ?_⟩
  · intro d m ab hd _ _
    simp only [compress_video_plan]
    rw [if_neg (ne_of_gt hd)]
  · simp only [compress_video_plan]
    rw [if_neg (by norm_num : (600 : ℚ) ≠ 0)]
    have hval : (200 : ℚ) * 8192 / 600 - (128 : ℤ) - 50 = 7658 / 3 := by norm_num
    rw [hval]
    rw [pyTrunc, if_neg (by norm_num : ¬ (7658 : ℚ) / 3 < 0)]
    have : ⌊(7658 : ℚ) / 3⌋ = 2552 := by norm_num
    rw [this]
    norm_num
  · intro d m ab hd hraw
    simp only [compress_video_plan]
    rw [if_neg (ne_of_gt hd)]
    have htr : pyTrunc (m * 8192 / d - (ab : ℚ) - 50) ≤ 100 := by
      rw [pyTrunc]
      by_cases hneg : m * 8192 / d - (ab : ℚ) - 50 < 0
      · rw [if_pos hneg]
        have : ⌈m * 8192 / d - (ab : ℚ) - 50⌉ ≤ (0 : ℤ) :=
          Int.ceil_le.mpr (by push_cast; exact le_of_lt hneg)
        omega
      · rw [if_neg hneg]
        have : ⌊m * 8192 / d - (ab : ℚ) - 50⌋ < (100 : ℤ) :=
          Int.floor_lt.mpr (by push_cast; exact hraw)
        omega
    exact max_eq_left htr

/-- C5: when the duration probe fails (`get_video_duration` returns
`None`), the planner yields the fixed 500 kbps fallback, for every
target size and audio bitrate — it cannot raise. -/
theorem compress_video_plan_probe_failure :
    ∀ (max_size_mb : ℚ) (ab : ℤ), compress_video_plan none max_size_mb ab = 500 :=
  fun _ _ => rfl

/-- C10: a probed duration of exactly `0.0` also takes the 500 kbps
fallback branch (Python's `if not duration:` is true for `0.0`), so the
formula never divides by zero, and for every probe outcome the planner
yields either the fallback or a value of at least 100. -/
theorem compress_video_plan_total :
    ∀ (max_size_mb : ℚ) (ab : ℤ),
      compress_video_plan (some 0) max_size_mb ab = 500
    ∧ compress_video_plan none max_size_mb ab = 500
    ∧ ∀ dOpt : Option ℚ, compress_video_plan dOpt max_size_mb ab = 500
        ∨ 100 ≤ compress_video_plan dOpt max_size_mb ab := by
  intro m ab
  refine ⟨by simp [compress_video_plan], rfl, ?_⟩
  intro dOpt
  match dOpt with
  | none => exact Or.inl rfl
  | some d =>
      by_cases hd : d = 0
      · exact Or.inl (by simp [compress_video_plan, hd])
      · refine Or.inr ?_
        simp only [compress_video_plan]
        rw [if_neg hd]
        exact le_max_left _ _

/-! ## Temp-file ledger (`cleanup_temp_files`, main.py lines 22-44) -/

/-- The reserved temporary-file suffix (main.py line 32). -/
def temp_suffix : String := "_temp.mp4"

/-- `os.path.join` with the separator written explicitly. -/
def pathJoin (a b : String) : String := a ++ "/" ++ b

mutual

/-- A directory tree as `os.walk` traverses it: the files directly in a
directory, and its named subdirectories. -/
inductive FTree : Type where
  | node : List String → Entries → FTree

/-- The ordered list of named subdirectories of a directory. -/
inductive Entries : Type where
  | enil : Entries
  | econs : String → FTree → Entries → Entries

end

mutual

/-- The scan of `cleanup_temp_files` (main.py lines 30-33): walk the tree
top-down and collect the joined path of every file whose name ends with
the temp suffix. -/
def walkTempFiles : String → FTree → List String
  | root, .node files subdirs =>
      (files.filter (fun f => f.endsWith temp_suffix)).map (fun f => pathJoin root f)
        ++ walkTempEntries root subdirs

/-- The scan continued over a directory's subdirectories. -/
def walkTempEntries : String → Entries → List String
  | _, .enil => []
  | root, .econs d t rest => walkTempFiles (pathJoin root d) t ++ walkTempEntries root rest

end

mutual

/-- All files of the tree, as (directory path, file name) pairs, in
`os.walk` order — the reference enumeration the scan is compared with. -/
def allFiles : String → FTree → List (String × String)
  | root, .node files subdirs =>
      files.map (fun f => (root, f)) ++ allFilesEntries root subdirs

/-- The enumeration continued over a directory's subdirectories. -/
def allFilesEntries : String → Entries → List (String × String)
  | _, .enil => []
  | root, .econs d t rest => allFiles (pathJoin root d) t ++ allFilesEntries root rest

end

/-- The deletion loop of `cleanup_temp_files` (main.py lines 37-42):
each path is attempted on its own inside `try`/`except`, so a failure is
recorded and the loop moves on.  `canDelete` says which deletions the
filesystem allows; the result is (deleted paths, per-file failure
reports), each in traversal order. -/
def purge (canDelete : String → Bool) : List String → List String × List String
  | [] => ([], [])
  | p :: rest =>
      let r := purge canDelete rest
      if canDelete p then (p :: r.1, r.2) else (r.1, p :: r.2)

theorem filter_pair_map (root sfx : String) (files : List String) :
    ((files.map (fun f => (root, f))).filter (fun p => p.2.endsWith sfx)).map
        (fun p => pathJoin p.1 p.2)
      = (files.filter (fun f => f.endsWith sfx)).map (fun f => pathJoin root f) := by
  induction files with
  | nil => rfl
  | cons a t ih =>
      by_cases h : a.endsWith sfx
      · simp only [List.map_cons, List.filter_cons, h, if_pos, List.map_cons, ih]
      · simp only [List.map_cons, List.filter_cons]
        simp only [h, Bool.false_eq_true, if_neg, not_false_iff, ih]

mutual

theorem walkTempFiles_eq_filter : ∀ (root : String) (t : FTree),
    walkTempFiles root t
      = ((allFiles root t).filter (fun p => p.2.endsWith temp_suffix)).map
          (fun p => pathJoin p.1 p.2)
  | root, .node files subdirs => by
      rw [walkTempFiles, allFiles, List.filter_append, List.map_append,
        walkTempEntries_eq_filter root subdirs, filter_pair_map]

theorem walkTempEntries_eq_filter : ∀ (root : String) (l : Entries),
    walkTempEntries root l
      = ((allFilesEntries root l).filter (fun p => p.2.endsWith temp_suffix)).map
          (fun p => pathJoin p.1 p.2)
  | _, .enil => rfl
  | root, .econs d t rest => by
      rw [walkTempEntries, allFilesEntries, List.filter_append, List.map_append,
        walkTempFiles_eq_filter (pathJoin root d) t, walkTempEntries_eq_filter root rest]

end

theorem purge_eq_filter (canDelete : String → Bool) (paths : List String) :
    purge canDelete paths
      = (paths.filter canDelete, paths.filter (fun p => !canDelete p)) := by
  induction paths with
  | nil => rfl
  | cons p rest ih =>
      by_cases h : canDelete p
      · simp [purge, ih, List.filter_cons, h]
      · simp [purge, ih, List.filter_cons, h]

/-- C7: the scan returns exactly the temp-suffixed files of the whole
tree (it recurses into every subdirectory); purging deletes exactly the
scanned paths the filesystem lets it delete and reports the rest
per-file, no failure aborting the remaining deletions; with no failures
it deletes exactly the N scanned files. -/
theorem cleanup_temp_files_spec (root : String) (t : FTree) (canDelete : String → Bool) :
    walkTempFiles root t
      = ((allFiles root t).filter (fun p => p.2.endsWith temp_suffix)).map
          (fun p => pathJoin p.1 p.2)
  ∧ (purge canDelete (walkTempFiles root t)).1 = (walkTempFiles root t).filter canDelete
  ∧ (purge canDelete (walkTempFiles root t)).2
      = (walkTempFiles root t).filter (fun p => !canDelete p)
  ∧ (purge (fun _ => true) (walkTempFiles root t)).1 = walkTempFiles root t := by
  refine ⟨walkTempFiles_eq_filter root t, ?_, ?_, ?_⟩
  · rw [purge_eq_filter]
  · rw [purge_eq_filter]
  · rw [purge_eq_filter]
    simp [List.filter_true]

/-! ## Pipeline orchestrator (`download_file`, main.py lines 113-172) -/

/-- The size cap, main.py line 14 (`MAX_FILE_SIZE_MB = 200`). -/
def MAX_FILE_SIZE_MB : ℚ := 200

/-- The filesystem visible to one task: each path holds a file's bytes
or nothing. -/
def FS : Type := String → Option (List Nat)

/-- Writing a file (`open(path, 'wb')` plus the write loop). -/
def FS.set (fs : FS) (p : String) (c : List Nat) : FS :=
  fun q => if q = p then some c else fs q

/-- `os.remove`. -/
def FS.remove (fs : FS) (p : String) : FS :=
  fun q => if q = p then none else fs q

/-- `os.rename src dst` (no-op when the source is missing, which the
pipeline never does on the paths it renames). -/
def FS.rename (fs : FS) (src dst : String) : FS :=
  match fs src with
  | none => fs
  | some c => FS.set (FS.remove fs src) dst c

/-- `os.path.join(target_folder, f"{filename}.mp4")`, main.py line 120. -/
def finalPath (folder filename : String) : String := pathJoin folder (filename ++ ".mp4")

/-- `os.path.join(target_folder, f"{filename}_temp.mp4")`, main.py line 121. -/
def tempPath (folder filename : String) : String := pathJoin folder (filename ++ "_temp.mp4")

/-- `os.path.getsize(p) / (1024 * 1024)`, main.py line 145. -/
def sizeMB (bytes : List Nat) : ℚ := (bytes.length : ℚ) / (1024 * 1024)

/-- The outcome `download_file` reports through its printed messages. -/
inductive Outcome : Type where
  | alreadyDownloaded
  | doneCompressed
  | doneCompressFallback
  | doneDirect
  | doneSizeWarning
  | failed
deriving DecidableEq

/-- What the streaming fetch did: full content streamed to the temp
file; a non-2xx status (`raise_for_status` fires before the temp file is
opened); or a transport error after part of the body was written. -/
inductive FetchResult : Type where
  | ok : List Nat → FetchResult
  | httpError : FetchResult
  | transportError : List Nat → FetchResult

/-- The state `download_file` leaves behind: the filesystem, the
reported outcome, whether the network was touched, and whether
`compress_video` was entered. -/
structure PipelineResult : Type where
  fs : FS
  outcome : Outcome
  fetched : Bool
  compressionAttempted : Bool

/-- `download_file` (main.py lines 113-172).  The network fetch and the
`compress_video` invocation are external, so they enter as oracles:
`fetchR` is what the fetch does, `compressOut` is `some out` when
`compress_video` succeeds writing `out` to the output path and `none`
when it fails (tool absent or non-zero exit).  The body mirrors the
source: skip when the final path exists; stream to the temp path,
cleaning it up on any fetch error; measure; then either compress (delete
the temp on success, rename it to the final path on failure) or rename
directly, warning when compression was disabled and the cap exceeded. -/
def download_file (fs : FS) (folder filename : String) (should_compress : Bool)
    (fetchR : FetchResult) (compressOut : Option (List Nat)) : PipelineResult :=
  if (fs (finalPath folder filename)).isSome then
    { fs := fs, outcome := .alreadyDownloaded, fetched := false, compressionAttempted := false }
  else
    match fetchR with
    | .httpError =>
        { fs := if (fs (tempPath folder filename)).isSome
              then FS.remove fs (tempPath folder filename) else fs,
          outcome := .failed, fetched := true, compressionAttempted := false }
    | .transportError part =>
        let fs1 := FS.set fs (tempPath folder filename) part
        { fs := if (fs1 (tempPath folder filename)).isSome
              then FS.remove fs1 (tempPath folder filename) else fs1,
          outcome := .failed, fetched := true, compressionAttempted := false }
    | .ok bytes =>
        let fs1 := FS.set fs (tempPath folder filename) bytes
        if should_compress = true ∧ sizeMB bytes > MAX_FILE_SIZE_MB then
          match compressOut with
          | some out =>
              { fs := FS.remove (FS.set fs1 (finalPath folder filename) out)
                  (tempPath folder filename),
                outcome := .doneCompressed, fetched := true, compressionAttempted := true }
          | none =>
              { fs := FS.rename fs1 (tempPath folder filename) (finalPath folder filename),
                outcome := .doneCompressFallback, fetched := true, compressionAttempted := true }
        else if should_compress = false ∧ sizeMB bytes > MAX_FILE_SIZE_MB then
          { fs := FS.rename fs1 (tempPath folder filename) (finalPath folder filename),
            outcome := .doneSizeWarning, fetched := true, compressionAttempted := false }
        else
          { fs := FS.rename fs1 (tempPath folder filename) (finalPath folder filename),
            outcome := .doneDirect, fetched := true, compressionAttempted := false }

/-! ## Helper lemmas for the pipeline -/

theorem FS.set_same (fs : FS) (p : String) (c : List Nat) : FS.set fs p c p = some c := by
  unfold FS.set
  rw [if_pos rfl]

theorem FS.set_other (fs : FS) (p : String) (c : List Nat) {q : String} (h : q ≠ p) :
    FS.set fs p c q = fs q := by
  unfold FS.set
  rw [if_neg h]

theorem FS.remove_same (fs : FS) (p : String) : FS.remove fs p p = none := by
  unfold FS.remove
  rw [if_pos rfl]

theorem FS.remove_other (fs : FS) (p : String) {q : String} (h : q ≠ p) :
    FS.remove fs p q = fs q := by
  unfold FS.remove
  rw [if_neg h]

theorem FS.set_apply (fs : FS) (p : String) (c : List Nat) (q : String) :
    FS.set fs p c q = if q = p then some c else fs q := rfl

theorem FS.remove_apply (fs : FS) (p q : String) :
    FS.remove fs p q = if q = p then none else fs q := rfl

theorem tempPath_ne_finalPath (folder filename : String) :
    tempPath folder filename ≠ finalPath folder filename := by
  intro h
  have hlen := congrArg String.length h
  have h9 : ("_temp.mp4" : String).length = 9 := rfl
  have h4 : (".mp4" : String).length = 4 := rfl
  simp only [tempPath, finalPath, pathJoin, String.length_append, h9, h4] at hlen
  omega

theorem finalPath_ne_tempPath (folder filename : String) :
    finalPath folder filename ≠ tempPath folder filename :=
  fun h => tempPath_ne_finalPath folder filename h.symm

theorem FS.rename_eval (fs : FS) (src dst : String) (c : List Nat)
    (hsrc : fs src = some c) (hne : src ≠ dst) :
    FS.rename fs src dst src = none ∧ FS.rename fs src dst dst = some c := by
  unfold FS.rename
  rw [hsrc]
  constructor
  · show FS.set (FS.remove fs src) dst c src = none
    rw [FS.set_other _ _ _ hne, FS.remove_same]
  · exact FS.set_same _ _ _

/-! ## Claims about the pipeline -/

/-- C4: when the final path already exists, `download_file` returns
before the network request: the filesystem is untouched (so the existing
file stays byte-identical and no temp file appears), no fetch happens,
and it reports the already-downloaded outcome. -/
theorem download_file_skip_existing (fs : FS) (folder filename : String)
    (should_compress : Bool) (fetchR : FetchResult) (compressOut : Option (List Nat))
    (h : (fs (finalPath folder filename)).isSome = true) :
    download_file fs folder filename should_compress fetchR compressOut
      = { fs := fs, outcome := .alreadyDownloaded, fetched := false,
          compressionAttempted := false } := by
  unfold download_file
  rw [if_pos h]

/-- Witness for C4 at a concrete store holding the final file. -/
theorem download_file_skip_existing_witness :
    download_file (fun q => if q = finalPath "course" "lec1" then some [7, 7] else none)
        "course" "lec1" true (.ok [1]) none
      = { fs := fun q => if q = finalPath "course" "lec1" then some [7, 7] else none,
          outcome := .alreadyDownloaded, fetched := false, compressionAttempted := false } :=
  download_file_skip_existing
    (fun q => if q = finalPath "course" "lec1" then some [7, 7] else none)
    "course" "lec1" true (.ok [1]) none (by simp)

/-- C2: starting from a store with no temp file (the ledger purged any
leftover), every terminal state of `download_file` leaves the temp path
absent, and at most one of the temp and final paths exists: compression
success deletes the temp, the direct and fallback paths rename it to the
final path, and every fetch error removes it. -/
theorem download_file_temp_invariant (fs : FS) (folder filename : String)
    (should_compress : Bool) (fetchR : FetchResult) (compressOut : Option (List Nat))
    (h : fs (tempPath folder filename) = none) :
    (download_file fs folder filename should_compress fetchR compressOut).fs
        (tempPath folder filename) = none
  ∧ ¬(((download_file fs folder filename should_compress fetchR compressOut).fs
          (tempPath folder filename)).isSome = true
      ∧ ((download_file fs folder filename should_compress fetchR compressOut).fs
          (finalPath folder filename)).isSome = true) := by
  have hne := tempPath_ne_finalPath folder filename
  have hmain : (download_file fs folder filename should_compress fetchR compressOut).fs
      (tempPath folder filename) = none := by
    by_cases hex : (fs (finalPath folder filename)).isSome = true
    · simp [download_file, hex, h]
    · cases fetchR with
      | httpError => simp [download_file, hex, h]
      | transportError part =>
          simp [download_file, hex, FS.set_apply, FS.remove_apply]
      | ok bytes =>
          by_cases hc : should_compress = true ∧ sizeMB bytes > MAX_FILE_SIZE_MB
          · cases compressOut with
            | some out =>
                simp [download_file, hex, hc, FS.set_apply, FS.remove_apply, hne]
            | none =>
                simp [download_file, hex, hc, FS.rename, FS.set_apply, FS.remove_apply, hne]
          · by_cases hc2 : should_compress = false ∧ sizeMB bytes > MAX_FILE_SIZE_MB
            · simp [download_file, hex, hc, hc2, FS.rename, FS.set_apply,
                FS.remove_apply, hne]
            · simp [download_file, hex, hc, hc2, FS.rename, FS.set_apply,
                FS.remove_apply, hne]
  refine ⟨hmain, fun hc => ?_⟩
  rw [hmain] at hc
  exact absurd hc.1 (by simp)

/-- Witness for C2 at a concrete store, task and oracles. -/
theorem download_file_temp_invariant_witness :
    (download_file (fun _ => none) "course" "lec1" true (.ok [1, 2]) (some [1])).fs
        (tempPath "course" "lec1") = none
  ∧ ¬(((download_file (fun _ => none) "course" "lec1" true (.ok [1, 2]) (some [1])).fs
          (tempPath "course" "lec1")).isSome = true
      ∧ ((download_file (fun _ => none) "course" "lec1" true (.ok [1, 2]) (some [1])).fs
          (finalPath "course" "lec1")).isSome = true) :=
  download_file_temp_invariant (fun _ => none) "course" "lec1" true (.ok [1, 2])
    (some [1]) rfl

/-- C8: with no final file in place, a non-2xx status and a transport
error that left partial bytes both end the task in the failed outcome,
with the temp path deleted and no final file created. -/
theorem download_file_fetch_failure (fs : FS) (folder filename : String)
    (should_compress : Bool) (compressOut : Option (List Nat)) (part : List Nat)
    (hfin : fs (finalPath folder filename) = none) :
    ((download_file fs folder filename should_compress .httpError compressOut).outcome
        = .failed
      ∧ (download_file fs folder filename should_compress .httpError compressOut).fs
          (tempPath folder filename) = none
      ∧ (download_file fs folder filename should_compress .httpError compressOut).fs
          (finalPath folder filename) = none)
  ∧ ((download_file fs folder filename should_compress (.transportError part)
        compressOut).outcome = .failed
      ∧ (download_file fs folder filename should_compress (.transportError part)
          compressOut).fs (tempPath folder filename) = none
      ∧ (download_file fs folder filename should_compress (.transportError part)
          compressOut).fs (finalPath folder filename) = none) := by
  have hne := finalPath_ne_tempPath folder filename
  have hex : ¬(fs (finalPath folder filename)).isSome = true := by simp [hfin]
  constructor
  · refine ⟨by simp [download_file, hex], ?_, ?_⟩
    · cases ht : fs (tempPath folder filename) with
      | none => simp [download_file, hex, ht]
      | some c => simp [download_file, hex, ht, FS.remove_apply]
    · cases ht : fs (tempPath folder filename) with
      | none => simp [download_file, hex, ht, hfin]
      | some c => simp [download_file, hex, ht, FS.remove_apply, hne, hfin]
  · refine ⟨by simp [download_file, hex, FS.set_apply], ?_, ?_⟩
    · simp [download_file, hex, FS.set_apply, FS.remove_apply]
    · simp [download_file, hex, FS.set_apply, FS.remove_apply, hne, hfin]

/-- Witness for C8 at a concrete store with a partial body of three
bytes. -/
theorem download_file_fetch_failure_witness :
    ((download_file (fun _ => none) "course" "lec1" true .httpError none).outcome
        = .failed
      ∧ (download_file (fun _ => none) "course" "lec1" true .httpError none).fs
          (tempPath "course" "lec1") = none
      ∧ (download_file (fun _ => none) "course" "lec1" true .httpError none).fs
          (finalPath "course" "lec1") = none)
  ∧ ((download_file (fun _ => none) "course" "lec1" true (.transportError [1, 2, 3])
        none).outcome = .failed
      ∧ (download_file (fun _ => none) "course" "lec1" true (.transportError [1, 2, 3])
          none).fs (tempPath "course" "lec1") = none
      ∧ (download_file (fun _ => none) "course" "lec1" true (.transportError [1, 2, 3])
          none).fs (finalPath "course" "lec1") = none) :=
  download_file_fetch_failure (fun _ => none) "course" "lec1" true none [1, 2, 3] rfl

/-- C3: a fetched file over the cap with compression enabled whose
transcode fails is not lost: the uncompressed temp file is renamed to
the final path, the temp path is gone, and the task ends in the
warning-done outcome. -/
theorem download_file_compress_fallback (fs : FS) (folder filename : String)
    (bytes : List Nat)
    (hfin : fs (finalPath folder filename) = none)
    (hsize : sizeMB bytes > MAX_FILE_SIZE_MB) :
    (download_file fs folder filename true (.ok bytes) none).outcome
        = .doneCompressFallback
  ∧ (download_file fs folder filename true (.ok bytes) none).fs
      (finalPath folder filename) = some bytes
  ∧ (download_file fs folder filename true (.ok bytes) none).fs
      (tempPath folder filename) = none
  ∧ (download_file fs folder filename true (.ok bytes) none).compressionAttempted = true := by
  have hne := tempPath_ne_finalPath folder filename
  have hex : ¬(fs (finalPath folder filename)).isSome = true := by simp [hfin]
  have hc : (true : Bool) = true ∧ sizeMB bytes > MAX_FILE_SIZE_MB := ⟨rfl, hsize⟩
  refine ⟨?_, ?_, ?_, ?_⟩
  · simp [download_file, hex, hc]
  · simp [download_file, hex, hc, FS.rename, FS.set_apply, FS.remove_apply, hne]
  · simp [download_file, hex, hc, FS.rename, FS.set_apply, FS.remove_apply, hne]
  · simp [download_file, hex, hc]

/-- Witness for C3: an empty store and a fetched body one byte over the
200 MB cap. -/
theorem download_file_compress_fallback_witness :
    (download_file (fun _ => none) "course" "lec1" true
        (.ok (List.replicate 209715201 0)) none).outcome = .doneCompressFallback
  ∧ (download_file (fun _ => none) "course" "lec1" true
      (.ok (List.replicate 209715201 0)) none).fs (finalPath "course" "lec1")
      = some (List.replicate 209715201 0)
  ∧ (download_file (fun _ => none) "course" "lec1" true
      (.ok (List.replicate 209715201 0)) none).fs (tempPath "course" "lec1") = none
  ∧ (download_file (fun _ => none) "course" "lec1" true
      (.ok (List.replicate 209715201 0)) none).compressionAttempted = true :=
  download_file_compress_fallback (fun _ => none) "course" "lec1"
    (List.replicate 209715201 0) rfl
    (by rw [sizeMB, MAX_FILE_SIZE_MB, List.length_replicate]; norm_num)

/-- C6: after a successful fetch the pipeline enters compression exactly
when it is enabled and the size strictly exceeds the cap; otherwise the
temp file is renamed directly to the final path (ending done-direct or
done-with-size-warning), and with compression disabled and the cap
exceeded the outcome is specifically the size-limit warning. -/
theorem download_file_measure_decision (fs : FS) (folder filename : String)
    (should_compress : Bool) (compressOut : Option (List Nat)) (bytes : List Nat)
    (hfin : fs (finalPath folder filename) = none) :
    ((download_file fs folder filename should_compress (.ok bytes)
          compressOut).compressionAttempted = true
        ↔ should_compress = true ∧ sizeMB bytes > MAX_FILE_SIZE_MB)
  ∧ (¬(should_compress = true ∧ sizeMB bytes > MAX_FILE_SIZE_MB) →
        (download_file fs folder filename should_compress (.ok bytes) compressOut).fs
            (finalPath folder filename) = some bytes
      ∧ (download_file fs folder filename should_compress (.ok bytes) compressOut).fs
            (tempPath folder filename) = none
      ∧ ((download_file fs folder filename should_compress (.ok bytes)
            compressOut).outcome = .doneDirect
        ∨ (download_file fs folder filename should_compress (.ok bytes)
            compressOut).outcome = .doneSizeWarning))
  ∧ (should_compress = false ∧ sizeMB bytes > MAX_FILE_SIZE_MB →
        (download_file fs folder filename should_compress (.ok bytes)
          compressOut).outcome = .doneSizeWarning) := by
  have hne := tempPath_ne_finalPath folder filename
  have hex : ¬(fs (finalPath folder filename)).isSome = true := by simp [hfin]
  by_cases hc : should_compress = true ∧ sizeMB bytes > MAX_FILE_SIZE_MB
  · refine ⟨?_, fun habs => absurd hc habs, fun h2 => ?_⟩
    · cases compressOut with
      | some out => simp [download_file, hex, hc]
      | none => simp [download_file, hex, hc]
    · rw [h2.1] at hc
      exact absurd hc.1 (by simp)
  · by_cases hc2 : should_compress = false ∧ sizeMB bytes > MAX_FILE_SIZE_MB
    · refine ⟨?_, fun _ => ⟨?_, ?_, Or.inr ?_⟩, fun _ => ?_⟩
      · simp [download_file, hex, hc, hc2]
      · simp [download_file, hex, hc, hc2, FS.rename, FS.set_apply, FS.remove_apply, hne]
      · simp [download_file, hex, hc, hc2, FS.rename, FS.set_apply, FS.remove_apply, hne]
      · simp [download_file, hex, hc, hc2]
      · simp [download_file, hex, hc, hc2]
    · refine ⟨?_, fun _ => ⟨?_, ?_, Or.inl ?_⟩, fun h2 => absurd h2 hc2⟩
      · simp [download_file, hex, hc, hc2]
      · simp [download_file, hex, hc, hc2, FS.rename, FS.set_apply, FS.remove_apply, hne]
      · simp [download_file, hex, hc, hc2, FS.rename, FS.set_apply, FS.remove_apply, hne]
      · simp [download_file, hex, hc, hc2]

/-- Witness for C6: compression disabled on a three-byte fetch below the
cap. -/
theorem download_file_measure_decision_witness :
    ((download_file (fun _ => none) "course" "lec1" false (.ok [1, 2, 3])
          none).compressionAttempted = true
        ↔ (false : Bool) = true ∧ sizeMB [1, 2, 3] > MAX_FILE_SIZE_MB)
  ∧ (¬((false : Bool) = true ∧ sizeMB [1, 2, 3] > MAX_FILE_SIZE_MB) →
        (download_file (fun _ => none) "course" "lec1" false (.ok [1, 2, 3]) none).fs
            (finalPath "course" "lec1") = some [1, 2, 3]
      ∧ (download_file (fun _ => none) "course" "lec1" false (.ok [1, 2, 3]) none).fs
            (tempPath "course" "lec1") = none
      ∧ ((download_file (fun _ => none) "course" "lec1" false (.ok [1, 2, 3])
            none).outcome = .doneDirect
        ∨ (download_file (fun _ => none) "course" "lec1" false (.ok [1, 2, 3])
            none).outcome = .doneSizeWarning))
  ∧ ((false : Bool) = false ∧ sizeMB [1, 2, 3] > MAX_FILE_SIZE_MB →
        (download_file (fun _ => none) "course" "lec1" false (.ok [1, 2, 3])
          none).outcome = .doneSizeWarning) :=
  download_file_measure_decision (fun _ => none) "course" "lec1" false none [1, 2, 3] rfl

end PolitoDL
